import Mathlib

/-!
Verification development for the MIDI decoding core of the piano repository.

The definitions below are a shallow embedding of the functions in
src/unnamed/part_002 (namespace piano_midi: read_be, read_var_len,
read_midi_header, read_track_header, translate_time, parse_midi) together
with the data model of src/MidiParser/lib/piano.hh (status_t, event_num_t,
event_t).  The byte buffer is a list of natural numbers, a pointer into it
is an index, and a read that would touch memory outside the buffer returns
none (the C++ original performs the access, which is undefined behaviour).
Machine integers are naturals reduced modulo the word size exactly where
the C++ types truncate.
-/

namespace PianoMidi

/-- 2 to the 64, the modulus of the C++ type uint64_t. -/
def U64 : Nat := 2 ^ 64

/-- status_t from src/MidiParser/lib/piano.hh (five members, no other
error kind exists in the code). -/
inductive status_t where
  | STATUS_SUCCESS
  | STATUS_MIDI_HEADER_LENGTH_ERROR
  | STATUS_MIDI_HEADER_FORMAT_ERROR
  | STATUS_MIDI_HEADER_NTRACKS_ERROR
  | STATUS_MIDI_EVENT_ERROR
deriving DecidableEq

/-- event_num_t from src/MidiParser/lib/piano.hh. -/
inductive event_num_t where
  | EVENT_NOTE_ON
  | EVENT_NOTE_OFF
  | EVENT_TEMPO_SET
deriving DecidableEq

/-- event_t from src/MidiParser/lib/piano.hh in its decode-phase shape:
the union time_ holds current_ticks.  data_ holds the note for note
events and the tempo for tempo events. -/
structure event_t where
  event_ : event_num_t
  data_ : Nat
  ticks : Nat
deriving DecidableEq

/-- event_t after translate_time: the union time_ now holds delta_time.
The C++ double is modelled by an exact rational. -/
structure timed_event_t where
  event_ : event_num_t
  data_ : Nat
  delta_time : ℚ
deriving DecidableEq

/-- midi_header_t from src/unnamed/part_002 (identifier bytes omitted:
they are always MThd when the structure is filled). -/
structure midi_header_t where
  chunk_length : Nat
  format : Nat
  ntracks : Nat
  tickdiv : Nat
deriving DecidableEq

/-- Width in bits of the result type chosen by read_be via
std::conditional_t in src/unnamed/part_002 lines 206-218. -/
def beWidth (n : Nat) : Nat :=
  if n ≤ 1 then 8 else if n ≤ 2 then 16 else if n ≤ 4 then 32 else 64

/-- read_be from src/unnamed/part_002 lines 201-226: read n bytes
big-endian and advance the cursor.  Each accumulation step is truncated
to the C++ result type, and an access past the buffer is none. -/
def read_be (n : Nat) (buf : List Nat) (pos : Nat) : Option (Nat × Nat) :=
  if pos + n ≤ buf.length then
    some ((List.range n).foldl
            (fun r i => (r * 256 + buf.getD (pos + i) 0 % 256) % 2 ^ beWidth n) 0,
          pos + n)
  else
    none

/-- Loop body of read_var_len; the fuel is an upper bound on the number
of bytes left, each iteration consumes one byte. -/
def read_var_len_aux (buf : List Nat) : Nat → Nat → Nat → Option (Nat × Nat)
  | 0, _, _ => none
  | fuel + 1, pos, acc =>
    match buf.get? pos with
    | none => none
    | some b0 =>
      let b := b0 % 256
      let acc2 := (acc * 128 + b % 128) % U64
      if 128 ≤ b then read_var_len_aux buf fuel (pos + 1) acc2
      else some (acc2, pos + 1)

/-- read_var_len from src/unnamed/part_002 lines 230-241: assemble 7 bits
per byte while the continuation bit 0x80 is set.  The loop has no byte
cap; it stops only when a byte has the top bit clear, and a read past
the buffer is none. -/
def read_var_len (buf : List Nat) (pos : Nat) : Option (Nat × Nat) :=
  read_var_len_aux buf (buf.length + 1 - pos) pos 0

/-- The four tag bytes MThd. -/
def tagMThd : List Nat := [0x4d, 0x54, 0x68, 0x64]

/-- The four tag bytes MTrk. -/
def tagMTrk : List Nat := [0x4d, 0x54, 0x72, 0x6b]

/-- The std::string(pos, 4) read used by the chunk scans: the four bytes
at the cursor, none when fewer than four remain. -/
def tagAt (buf : List Nat) (pos : Nat) : Option (List Nat) :=
  if pos + 4 ≤ buf.length then some (((buf.drop pos).take 4).map (· % 256))
  else none

/-- The while loops of read_midi_header and read_track_header
(src/unnamed/part_002 lines 249-254 and 291-296): skip chunks by tag and
length until the wanted tag is found.  Returns the index of the tag. -/
def scan_chunks (tag : List Nat) (buf : List Nat) : Nat → Nat → Option Nat
  | 0, _ => none
  | fuel + 1, pos =>
    match tagAt buf pos with
    | none => none
    | some t =>
      if t = tag then some pos
      else
        match read_be 4 buf (pos + 4) with
        | none => none
        | some (len, p2) => scan_chunks tag buf fuel (p2 + len)

/-- read_midi_header from src/unnamed/part_002 lines 245-283.  Returns
the status, the header as filled at the return point, and the cursor. -/
def read_midi_header (buf : List Nat) (pos : Nat) :
    Option (status_t × midi_header_t × Nat) :=
  match scan_chunks tagMThd buf (buf.length + 1) pos with
  | none => none
  | some p0 =>
    match read_be 4 buf (p0 + 4) with
    | none => none
    | some (clen, p2) =>
      if clen ≠ 6 then
        some (.STATUS_MIDI_HEADER_LENGTH_ERROR, ⟨clen, 0, 0, 0⟩, p2)
      else
        match read_be 2 buf p2 with
        | none => none
        | some (fmt, p3) =>
          if 3 ≤ fmt then
            some (.STATUS_MIDI_HEADER_FORMAT_ERROR, ⟨clen, fmt, 0, 0⟩, p3)
          else
            match read_be 2 buf p3 with
            | none => none
            | some (ntr, p4) =>
              if fmt = 0 ∧ ntr ≠ 1 then
                some (.STATUS_MIDI_HEADER_NTRACKS_ERROR, ⟨clen, fmt, ntr, 0⟩, p4)
              else
                match read_be 2 buf p4 with
                | none => none
                | some (td, p5) =>
                  some (.STATUS_SUCCESS, ⟨clen, fmt, ntr, td⟩, p5)

/-- read_track_header from src/unnamed/part_002 lines 287-302: scan to
the MTrk tag and read the chunk length (the status is always
STATUS_SUCCESS in the source, so only length and cursor are returned). -/
def read_track_header (buf : List Nat) (pos : Nat) : Option (Nat × Nat) :=
  match scan_chunks tagMTrk buf (buf.length + 1) pos with
  | none => none
  | some p0 =>
    match read_be 4 buf (p0 + 4) with
    | none => none
    | some (clen, p2) => some (clen, p2)

/-- The program-change handling of src/unnamed/part_002 lines 450-461:
when the program byte is in [0,7] the candidate channel becomes the
minimum of the event channel and the current candidate (initially 0xff)
and the confirmation flag is set; otherwise nothing changes. -/
def program_change_update (program midi_chanel piano_chanel : Nat) (has : Bool) :
    Nat × Bool :=
  if program ≤ 7 then (min midi_chanel piano_chanel, true) else (piano_chanel, has)

/-- The note event construction of src/unnamed/part_002 lines 491-499:
a note-on with velocity 0 is turned into a note-off before the event
kind is chosen. -/
def note_event_emit (midi_event note velocity time : Nat) : event_t :=
  let me := if midi_event = 0x90 ∧ velocity = 0 then 0x80 else midi_event
  ⟨if me = 0x90 then .EVENT_NOTE_ON else .EVENT_NOTE_OFF, note, time⟩

/-- Outcome of one iteration of the per-track event loop. -/
inductive step_result where
  | ub : step_result
  | fatal : step_result
  | next (pos time last pc : Nat) (has : Bool) (emit : Option event_t) : step_result
deriving DecidableEq

/-- One iteration of the while loop of parse_midi, src/unnamed/part_002
lines 398-500: read the delta time, resolve running status, dispatch on
meta / system exclusive / channel events.  ub marks a read outside the
buffer (undefined behaviour in the C++), fatal is the default branch of
the category switch (STATUS_MIDI_EVENT_ERROR). -/
def track_step (buf : List Nat) (pos time last pc : Nat) (has : Bool) :
    step_result :=
  match read_var_len buf pos with
  | none => .ub
  | some (delta, p1) =>
    let time := (time + delta) % U64
    match read_be 1 buf p1 with
    | none => .ub
    | some (te0, p2) =>
      let track_event := if te0 < 128 then last else te0
      let p2 := if te0 < 128 then p2 - 1 else p2
      let last := if te0 < 128 then last else te0
      if track_event = 0xff then
        match read_be 1 buf p2 with
        | none => .ub
        | some (meta_event, p3) =>
          match read_var_len buf p3 with
          | none => .ub
          | some (mlen, p4) =>
            if meta_event = 0x51 then
              match read_be 3 buf p4 with
              | none => .ub
              | some (tempo, p5) =>
                .next p5 time last pc has (some ⟨.EVENT_TEMPO_SET, tempo, time⟩)
            else
              .next (p4 + mlen) time last pc has none
      else if track_event = 0xf0 ∨ track_event = 0xf7 then
        match read_var_len buf p2 with
        | none => .ub
        | some (slen, p3) => .next (p3 + slen) time last pc has none
      else
        let midi_event := track_event / 16 * 16
        let midi_chanel := track_event % 16
        if midi_event = 0xc0 then
          match read_be 1 buf p2 with
          | none => .ub
          | some (program, p3) =>
            let r := program_change_update program midi_chanel pc has
            .next p3 time last r.1 r.2 none
        else if has = false ∨ midi_chanel ≠ pc ∨
                (midi_event ≠ 0x80 ∧ midi_event ≠ 0x90) then
          if midi_event = 0x80 then .next (p2 + 2) time last pc has none
          else if midi_event = 0x90 then .next (p2 + 2) time last pc has none
          else if midi_event = 0xa0 then .next (p2 + 2) time last pc has none
          else if midi_event = 0xb0 then .next (p2 + 2) time last pc has none
          else if midi_event = 0xc0 then .next (p2 + 1) time last pc has none
          else if midi_event = 0xd0 then .next (p2 + 1) time last pc has none
          else if midi_event = 0xe0 then .next (p2 + 2) time last pc has none
          else .fatal
        else
          match read_be 1 buf p2 with
          | none => .ub
          | some (note, p3) =>
            match read_be 1 buf p3 with
            | none => .ub
            | some (velocity, p4) =>
              .next p4 time last pc has
                (some (note_event_emit midi_event note velocity time))

/-- Exit of the per-track event loop: done is the normal exit at the
declared chunk end (the cursor then equals endP), err is the fatal
STATUS_MIDI_EVENT_ERROR return, carrying the events pushed so far. -/
inductive track_exit where
  | done (time pc : Nat) (has : Bool) (events : List event_t)
  | err (events : List event_t)
deriving DecidableEq

/-- Apply a function to the event list carried by a track exit. -/
def track_exit.mapEvents (f : List event_t → List event_t) :
    track_exit → track_exit
  | .done time pc has events => .done time pc has (f events)
  | .err events => .err (f events)

/-- The while loop of src/unnamed/part_002 lines 398-500: iterate
track_step until the cursor equals the declared chunk end.  The loop
condition is position != end, so a step that jumps past endP keeps the
loop running (as in the C++).  The fuel only bounds the recursion; every
step consumes at least one buffer byte, so buf.length + 1 is always
enough. -/
def track_loop (buf : List Nat) (endP : Nat) :
    Nat → Nat → Nat → Nat → Nat → Bool → List event_t → Option track_exit
  | 0, _, _, _, _, _, _ => none
  | fuel + 1, pos, time, last, pc, has, events =>
    if pos = endP then some (.done time pc has events)
    else
      match track_step buf pos time last pc has with
      | .ub => none
      | .fatal => some (.err events)
      | .next pos2 time2 last2 pc2 has2 emit =>
        track_loop buf endP fuel pos2 time2 last2 pc2 has2 (events ++ emit.toList)

/-- The for loop over tracks of src/unnamed/part_002 lines 354-501,
including the format switch: format 1 zeroes the tick counter and skips
the whole track once a piano channel is confirmed; format 2 resets the
channel state; a format of 3 or more hits the default branch. -/
def tracks_loop (buf : List Nat) (format : Nat) :
    Nat → Nat → Nat → Nat → Bool → List event_t → Option (status_t × List event_t)
  | 0, _, _, _, _, events => some (.STATUS_SUCCESS, events)
  | tleft + 1, pos, time, pc, has, events =>
    if 3 ≤ format then some (.STATUS_MIDI_HEADER_FORMAT_ERROR, events)
    else if format = 1 ∧ has = true then
      tracks_loop buf format tleft pos 0 pc has events
    else
      let time := if format = 1 then 0 else time
      let pc := if format = 2 then 0xff else pc
      let has := if format = 2 then false else has
      match read_track_header buf pos with
      | none => none
      | some (clen, p1) =>
        match track_loop buf (p1 + clen) (buf.length + 1) p1 time 0 pc has events with
        | none => none
        | some (.err events2) => some (.STATUS_MIDI_EVENT_ERROR, events2)
        | some (.done time2 pc2 has2 events2) =>
          tracks_loop buf format tleft (p1 + clen) time2 pc2 has2 events2

/-- The comparator passed to std::sort in src/unnamed/part_002 lines
506-507: compare events by time_.current_ticks. -/
def midi_sort_lt (a b : event_t) : Prop := a.ticks < b.ticks

instance : DecidableRel midi_sort_lt := fun a b => Nat.decLt a.ticks b.ticks

/-- Modelled from the C++ standard contract of std::sort (the call in
src/unnamed/part_002 lines 503-507): the output is a permutation of the
input that is sorted for the comparator.  std::sort guarantees nothing
about the order of elements that compare equal. -/
def sort_contract (l l2 : List event_t) : Prop :=
  List.Perm l l2 ∧ List.Sorted (fun a b => ¬ midi_sort_lt b a) l2

/-- One executable refinement of the std::sort contract, used to give
the pipeline a computable output.  The contract itself (sort_contract)
is the authoritative semantics of the sort call. -/
def sortExec (l : List event_t) : List event_t :=
  List.insertionSort (fun a b => a.ticks ≤ b.ticks) l

/-- Loop body of translate_time, src/unnamed/part_002 lines 310-332,
threading last_ticks.  delta_ticks is the uint64_t difference
current_ticks - last_ticks (with wraparound).  The branch condition of
the source tests bit 7 of chunk_length (not of tickdiv); the metrical
branch divides by tickdiv with no factor 1000; the timecode branch uses
fps = tickdiv & 0x7f and subframes = (tickdiv >> 8) & 0xff. -/
def translate_time_aux (hdr : midi_header_t) : List event_t → Nat → List timed_event_t
  | [], _ => []
  | e :: rest, last =>
    let delta_ticks := (e.ticks % U64 + U64 - last % U64) % U64
    let d : timed_event_t :=
      if hdr.chunk_length / 128 % 2 = 0 then
        ⟨e.event_, e.data_, (delta_ticks : ℚ) / (hdr.tickdiv : ℚ)⟩
      else
        ⟨e.event_, e.data_,
          1000 * (delta_ticks : ℚ) / ((hdr.tickdiv % 128 * (hdr.tickdiv / 256 % 256) : Nat) : ℚ)⟩
    d :: translate_time_aux hdr rest e.ticks

/-- translate_time from src/unnamed/part_002 lines 306-334 (always
returns STATUS_SUCCESS, so only the list is returned): last_ticks starts
at 0. -/
def translate_time (hdr : midi_header_t) (events : List event_t) : List timed_event_t :=
  translate_time_aux hdr events 0

/-- Everything parse_midi does before the sort: header, then the track
loop with current_time = 0, piano_chanel = 0xff, has_piano_chanel =
false (src/unnamed/part_002 lines 337-501).  The caller-supplied events
list is threaded through unchanged; decoding appends to it. -/
def decode_phase (buf : List Nat) (events : List event_t) :
    Option (status_t × midi_header_t × List event_t) :=
  match read_midi_header buf 0 with
  | none => none
  | some (st, hdr, pos) =>
    if st ≠ .STATUS_SUCCESS then some (st, hdr, events)
    else
      match tracks_loop buf hdr.format hdr.ntracks pos 0 0xff false events with
      | none => none
      | some (st2, events2) => some (st2, hdr, events2)

/-- What parse_midi leaves in the caller-supplied vector together with
the returned status: on an error return the vector still holds raw
tick-stamped events, on success it holds the sorted and translated
ones. -/
inductive parse_output where
  | errored (st : status_t) (events : List event_t)
  | ok (events : List timed_event_t)
deriving DecidableEq

/-- parse_midi from src/unnamed/part_002 lines 337-517: decode, sort by
ticks, translate to delta times.  none models an out-of-bounds buffer
access (undefined behaviour in the C++ original). -/
def parse_midi (buf : List Nat) (events : List event_t) : Option parse_output :=
  match decode_phase buf events with
  | none => none
  | some (st, hdr, events2) =>
    if st ≠ .STATUS_SUCCESS then some (.errored st events2)
    else some (.ok (translate_time hdr (sortExec events2)))

/-! Concrete buffers used as test inputs. -/

/-- One MThd chunk with length 6, the given format and track count, and
tickdiv 0x0060 (metrical, 96 ppqn). -/
def hdrBytes (fmt ntr : Nat) : List Nat :=
  [0x4d, 0x54, 0x68, 0x64, 0, 0, 0, 6, 0, fmt, 0, ntr, 0, 0x60]

/-- One MTrk chunk whose declared length is the payload length. -/
def trkBytes (payload : List Nat) : List Nat :=
  [0x4d, 0x54, 0x72, 0x6b, 0, 0, 0, payload.length] ++ payload

/-- The end-to-end example of the spec: format 0, one track, ppqn 96,
program change, note on, 96 ticks later note off (velocity 0),
end-of-track meta. -/
def specBuf : List Nat := hdrBytes 0 1 ++ trkBytes
  [0x00, 0xc0, 0x00,
   0x00, 0x90, 0x3c, 0x40,
   0x60, 0x80, 0x3c, 0x00,
   0x00, 0xff, 0x2f, 0x00]

/-- Format 0 file whose track holds two note-on events with the same
tick (notes 60 and 61) after a confirming program change. -/
def buf2eq : List Nat := hdrBytes 0 1 ++ trkBytes
  [0x00, 0xc0, 0x00, 0x00, 0x90, 0x3c, 0x40, 0x00, 0x90, 0x3d, 0x40]

/-- Format 0 file whose track declares a chunk length of 2 but whose
first event (program change) is 3 bytes long, so the decoder overruns
the declared end. -/
def buf5over : List Nat := hdrBytes 0 1 ++
  [0x4d, 0x54, 0x72, 0x6b, 0, 0, 0, 2] ++ [0x00, 0xc0, 0x00]

/-- Format 1 file with two tracks: the first confirms channel 0 and
plays note 60; the second holds a note-off for note 60 on the same
channel 0. -/
def buf6fmt1 : List Nat := hdrBytes 1 2 ++
  trkBytes [0x00, 0xc0, 0x00, 0x00, 0x90, 0x3c, 0x40] ++
  trkBytes [0x00, 0x80, 0x3c, 0x40]

/-- Format 0 file whose track confirms channel 5 (program 0), then
confirms again on channel 2 (program 0), then plays note 60 on
channel 2. -/
def buf7min : List Nat := hdrBytes 0 1 ++ trkBytes
  [0x00, 0xc5, 0x00, 0x00, 0xc2, 0x00, 0x00, 0x92, 0x3c, 0x40]

/-- Format 0 file whose track holds an end-of-track meta (0xff 0x2f
0x00) followed, still inside the declared chunk length, by a note-on. -/
def buf8eot : List Nat := hdrBytes 0 1 ++ trkBytes
  [0x00, 0xc0, 0x00, 0x00, 0xff, 0x2f, 0x00, 0x00, 0x90, 0x3c, 0x40]

/-! Shared lemmas. -/

instance : IsTotal event_t (fun a b => a.ticks ≤ b.ticks) :=
  ⟨fun a b => Nat.le_total a.ticks b.ticks⟩

instance : IsTrans event_t (fun a b => a.ticks ≤ b.ticks) :=
  ⟨fun _ _ _ => Nat.le_trans⟩

/-- The executable sort is sorted by nondecreasing ticks. -/
lemma sortExec_sorted (l : List event_t) :
    (sortExec l).Sorted (fun a b => a.ticks ≤ b.ticks) :=
  List.sorted_insertionSort _ l

/-- The executable sort permutes its input. -/
lemma sortExec_perm (l : List event_t) : List.Perm l (sortExec l) :=
  (List.perm_insertionSort _ l).symm

/-- The executable sort satisfies the std::sort contract. -/
lemma sortExec_contract (l : List event_t) : sort_contract l (sortExec l) :=
  ⟨sortExec_perm l, (sortExec_sorted l).imp fun h => Nat.not_lt.mpr h⟩

/-- Parsing the end-to-end example of the spec: the note-on is emitted
with delta 0 and the note-off with delta 1 (96 ticks divided by 96
ppqn, with no factor 1000). -/
lemma parse_specBuf : parse_midi specBuf [] =
    some (.ok [⟨.EVENT_NOTE_ON, 60, 0⟩, ⟨.EVENT_NOTE_OFF, 60, 1⟩]) := by
  have h1 : decode_phase specBuf [] =
      some (.STATUS_SUCCESS, ⟨6, 0, 1, 96⟩,
        [⟨.EVENT_NOTE_ON, 60, 0⟩, ⟨.EVENT_NOTE_OFF, 60, 96⟩]) := by decide
  have h2 : sortExec [⟨.EVENT_NOTE_ON, 60, 0⟩, ⟨.EVENT_NOTE_OFF, 60, 96⟩] =
      [⟨.EVENT_NOTE_ON, 60, 0⟩, ⟨.EVENT_NOTE_OFF, 60, 96⟩] := by decide
  rw [parse_midi, h1]
  simp only [reduceCtorEq, ne_eq, not_true_eq_false, if_false, h2]
  simp [translate_time, translate_time_aux, U64]

/-! Claim theorems. -/

/-- Claim C3 (code bug): the claim demands that any read exceeding the
buffer fail with an OutOfBounds error, but the code performs no bounds
checking and status_t has no such member.  On the empty buffer the MThd
scan immediately reads four bytes past the end, and a four-byte
big-endian read on a one-byte buffer reads three bytes past the end;
both are out-of-bounds accesses (none in this embedding), not error
statuses. -/
theorem C3_code_bug :
    parse_midi ([] : List Nat) [] = none ∧ read_be 4 [0x4d] 0 = none := by
  constructor <;> decide

/-- Claim C4 (code bug): read_var_len does assemble 7 bits per byte
big-endian (third conjunct: 0x81 0x00 decodes to 128), but it has no
5-byte cap (second conjunct: six continuation bytes are consumed with no
error) and a continuation bit set on the last buffer byte makes it read
past the buffer (first conjunct: none, an out-of-bounds access) instead
of failing with MalformedVarInt, a status that does not exist in
status_t. -/
theorem C4_code_bug :
    read_var_len [0x80] 0 = none ∧
    read_var_len [0x81, 0x81, 0x81, 0x81, 0x81, 0x01] 0 = some (34630287489, 6) ∧
    read_var_len [0x81, 0x00] 0 = some (128, 2) := by
  refine ⟨by decide, by decide, by decide⟩

/-- Claim C5 (code bug): the decoder does not fail with TrackOverrun
when an event runs past the declared chunk length; the loop condition
position != end keeps it reading past the declared end until it leaves
the buffer (an out-of-bounds access, none here).  In buf5over the track
declares length 2 but its single program-change event is 3 bytes
long. -/
theorem C5_code_bug : parse_midi buf5over [] = none := by decide

/-- Claim C9 (confirmed): a note-on with velocity 0 is emitted as
exactly the event an explicit note-off with the same note and tick
produces, whatever the note-off velocity byte is. -/
theorem C9_noteon_vel0 : ∀ note v t : Nat,
    note_event_emit 0x90 note 0 t = ⟨.EVENT_NOTE_OFF, note, t⟩ ∧
    note_event_emit 0x80 note v t = ⟨.EVENT_NOTE_OFF, note, t⟩ := by
  intro note v t
  constructor <;> simp [note_event_emit]

/-- Claim C6 counterexample: in the format-1 file buf6fmt1 the first
track confirms channel 0 and the second track holds a note-off on that
same channel, yet the parse output holds only the first track's
note-on: the second track is never scanned.  The second conjunct shows
that scanning the second track chunk (payload at index 37, declared end
41) from the confirmed state would emit the note-off the claim
requires. -/
theorem C6_counterexample :
    parse_midi buf6fmt1 [] = some (.ok [⟨.EVENT_NOTE_ON, 60, 0⟩]) ∧
    track_loop buf6fmt1 41 42 37 0 0 0 true [] =
      some (.done 0 0 true [⟨.EVENT_NOTE_OFF, 60, 0⟩]) := by
  constructor
  · have h1 : decode_phase buf6fmt1 [] =
        some (.STATUS_SUCCESS, ⟨6, 1, 2, 96⟩, [⟨.EVENT_NOTE_ON, 60, 0⟩]) := by decide
    have h2 : sortExec [⟨.EVENT_NOTE_ON, 60, 0⟩] = [⟨.EVENT_NOTE_ON, 60, 0⟩] := by decide
    rw [parse_midi, h1]
    simp only [reduceCtorEq, ne_eq, not_true_eq_false, if_false, h2]
    simp [translate_time, translate_time_aux, U64]
  · decide

/-- Claim C6 amended: in a format-1 file, once a piano channel is
confirmed the remaining tracks are not scanned at all: the track
iteration only zeroes the tick counter and moves on to the next track
without consuming any input. -/
theorem C6_amended (buf : List Nat) (format tleft pos time pc : Nat)
    (events : List event_t) (h : format = 1) :
    tracks_loop buf format (tleft + 1) pos time pc true events =
      tracks_loop buf format tleft pos 0 pc true events := by
  subst h
  simp [tracks_loop]

/-- Witness for C6_amended at a concrete state. -/
theorem C6_amended_witness :
    tracks_loop [] 1 1 5 7 9 true [] = tracks_loop [] 1 0 5 0 9 true [] :=
  C6_amended [] 1 0 5 7 9 [] rfl

/-- Claim C7 counterexample: a later qualifying program change is not
ignored.  From the confirmed state (channel 5) a program change with
value 0 on channel 2 moves the confirmed channel to min 2 5 = 2.  In
buf7min this makes the decoder emit the note played on channel 2, which
under the claim (first confirmation wins) would not be on the piano
channel. -/
theorem C7_counterexample :
    program_change_update 0 2 5 true = (2, true) ∧
    ((2 : Nat), true) ≠ ((5 : Nat), true) ∧
    parse_midi buf7min [] = some (.ok [⟨.EVENT_NOTE_ON, 60, 0⟩]) := by
  refine ⟨by decide, by decide, ?_⟩
  have h1 : decode_phase buf7min [] =
      some (.STATUS_SUCCESS, ⟨6, 0, 1, 96⟩, [⟨.EVENT_NOTE_ON, 60, 0⟩]) := by decide
  have h2 : sortExec [⟨.EVENT_NOTE_ON, 60, 0⟩] = [⟨.EVENT_NOTE_ON, 60, 0⟩] := by decide
  rw [parse_midi, h1]
  simp only [reduceCtorEq, ne_eq, not_true_eq_false, if_false, h2]
  simp [translate_time, translate_time_aux, U64]

/-- Claim C7 amended: a program change confirms whenever its data byte
is in [0,7] (so 0 and 7 confirm from the unconfirmed state and 8 never
does), but a later qualifying program change is not ignored: the
confirmed channel becomes the minimum of the event channel and the
current candidate (initially 0xff). -/
theorem C7_amended (ch pc : Nat) (has : Bool) (hch : ch ≤ 15) :
    program_change_update 0 ch 0xff false = (ch, true) ∧
    program_change_update 7 ch 0xff false = (ch, true) ∧
    program_change_update 8 ch pc has = (pc, has) ∧
    ∀ p, p ≤ 7 → program_change_update p ch pc true = (min ch pc, true) := by
  refine ⟨?_, ?_, ?_, ?_⟩
  · simp [program_change_update, Nat.min_eq_left (by omega : ch ≤ 0xff)]
  · simp [program_change_update, Nat.min_eq_left (by omega : ch ≤ 0xff)]
  · simp [program_change_update]
  · intro p hp
    simp [program_change_update, hp]

/-- Witness for C7_amended at channel 5, candidate 3. -/
theorem C7_amended_witness :
    program_change_update 0 5 0xff false = (5, true) ∧
    program_change_update 7 5 0xff false = (5, true) ∧
    program_change_update 8 5 3 false = (3, false) ∧
    ∀ p, p ≤ 7 → program_change_update p 5 3 true = (min 5 3, true) :=
  C7_amended 5 3 false (by decide)

/-- Unfolding of the translate_time fold: when bit 7 of chunk_length is
clear, every event is paired with the preceding tick value and the delta
is their difference divided by tickdiv (no factor 1000). -/
lemma translate_time_aux_eq (hdr : midi_header_t)
    (hcl : hdr.chunk_length / 128 % 2 = 0) :
    ∀ (evts : List event_t) (last : Nat), last < U64 →
      (∀ e ∈ evts, e.ticks < U64) →
      List.Chain' (fun a b => a ≤ b) (last :: evts.map event_t.ticks) →
      translate_time_aux hdr evts last =
        (evts.zip (last :: evts.map event_t.ticks)).map
          (fun p => ⟨p.1.event_, p.1.data_,
            ((p.1.ticks : ℚ) - (p.2 : ℚ)) / (hdr.tickdiv : ℚ)⟩) := by
  intro evts
  induction evts with
  | nil => intro last _ _ _; rfl
  | cons e rest ih =>
    intro last hlast hb hch
    have he : e.ticks < U64 := hb e (List.mem_cons_self e rest)
    have hb2 : ∀ x ∈ rest, event_t.ticks x < U64 :=
      fun x hx => hb x (List.mem_cons_of_mem _ hx)
    rw [List.map_cons] at hch
    obtain ⟨hle, hch2⟩ := List.chain'_cons.mp hch
    have hdelta : (e.ticks % U64 + U64 - last % U64) % U64 = e.ticks - last := by
      rw [Nat.mod_eq_of_lt he, Nat.mod_eq_of_lt hlast]
      have h1 : e.ticks + U64 - last = U64 + (e.ticks - last) := by omega
      rw [h1, Nat.add_mod_left, Nat.mod_eq_of_lt (by omega)]
    simp only [translate_time_aux, List.map_cons, List.zip_cons_cons, List.map_cons]
    rw [hdelta, if_pos hcl]
    congr 1
    · rw [Nat.cast_sub hle]
    · exact ih e.ticks he hb2 hch2

/-- Claim C1 counterexample: parsing the end-to-end example of the spec
(metrical, ppqn 96, two note events 96 ticks apart) gives the second
event a delta of 1, not the 1000 the claim requires. -/
theorem C1_counterexample :
    parse_midi specBuf [] =
      some (.ok [⟨.EVENT_NOTE_ON, 60, 0⟩, ⟨.EVENT_NOTE_OFF, 60, 1⟩]) ∧
    (1 : ℚ) ≠ 1000 := by
  exact ⟨parse_specBuf, by norm_num⟩

/-- Claim C1 amended: for a tick-sorted, uint64-bounded event list and a
header whose chunk_length has bit 7 clear (always the case after a
successful header parse, where chunk_length = 6), the translation pairs
each event with the previous tick (0 for the first) and emits
delta_ticks / tickdiv — the metrical branch is always the one taken,
because the source tests chunk_length rather than tickdiv, and the
factor 1000 of the claim is absent. -/
theorem C1_amended (hdr : midi_header_t) (evts : List event_t)
    (hcl : hdr.chunk_length / 128 % 2 = 0)
    (hb : ∀ e ∈ evts, e.ticks < U64)
    (hch : List.Chain' (fun a b => a ≤ b) (0 :: evts.map event_t.ticks)) :
    translate_time hdr evts =
      (evts.zip (0 :: evts.map event_t.ticks)).map
        (fun p => ⟨p.1.event_, p.1.data_,
          ((p.1.ticks : ℚ) - (p.2 : ℚ)) / (hdr.tickdiv : ℚ)⟩) :=
  translate_time_aux_eq hdr hcl evts 0 (by norm_num [U64]) hb hch

/-- Witness for C1_amended at the decoded events of the spec example. -/
theorem C1_amended_witness :
    translate_time ⟨6, 0, 1, 96⟩
        [⟨.EVENT_NOTE_ON, 60, 0⟩, ⟨.EVENT_NOTE_OFF, 60, 96⟩] =
      ([⟨.EVENT_NOTE_ON, 60, 0⟩, (⟨.EVENT_NOTE_OFF, 60, 96⟩ : event_t)].zip
          (0 :: [⟨.EVENT_NOTE_ON, 60, 0⟩,
                 (⟨.EVENT_NOTE_OFF, 60, 96⟩ : event_t)].map event_t.ticks)).map
        (fun p => ⟨p.1.event_, p.1.data_,
          ((p.1.ticks : ℚ) - (p.2 : ℚ)) / ((96 : Nat) : ℚ)⟩) :=
  C1_amended ⟨6, 0, 1, 96⟩ _ (by decide) (by decide)
    (by simp [List.chain'_cons])

/-- Claim C2 counterexample: the input buf2eq decodes to two note-on
events with the same tick, in the encounter order note 60 then note 61.
The std::sort contract also admits the output in the opposite order, so
the claim that equal-tick events retain their encounter order does not
hold for the sort the code performs. -/
theorem C2_counterexample :
    decode_phase buf2eq [] =
      some (.STATUS_SUCCESS, ⟨6, 0, 1, 96⟩,
        [⟨.EVENT_NOTE_ON, 60, 0⟩, ⟨.EVENT_NOTE_ON, 61, 0⟩]) ∧
    ¬ (∀ out, sort_contract
        [⟨.EVENT_NOTE_ON, 60, 0⟩, ⟨.EVENT_NOTE_ON, 61, 0⟩] out →
        out = [⟨.EVENT_NOTE_ON, 60, 0⟩, ⟨.EVENT_NOTE_ON, 61, 0⟩]) := by
  constructor
  · decide
  · intro hall
    have hc : sort_contract
        [⟨.EVENT_NOTE_ON, 60, 0⟩, ⟨.EVENT_NOTE_ON, 61, 0⟩]
        [⟨.EVENT_NOTE_ON, 61, 0⟩, ⟨.EVENT_NOTE_ON, 60, 0⟩] := by
      constructor
      · exact List.Perm.swap _ _ _
      · simp [List.Sorted, List.pairwise_cons, midi_sort_lt]
    have := hall _ hc
    simp at this

/-- Claim C2 amended: every successful parse output is the translation
of a list satisfying the std::sort contract on the decoded events: a
permutation of them that is sorted by nondecreasing tick, so an event
with a strictly smaller tick precedes one with a larger tick.  Equal-
tick order is not guaranteed (see the counterexample). -/
theorem C2_amended (buf : List Nat) (l0 : List event_t) (out : List timed_event_t)
    (h : parse_midi buf l0 = some (.ok out)) :
    ∃ hdr evts, decode_phase buf l0 = some (.STATUS_SUCCESS, hdr, evts) ∧
      out = translate_time hdr (sortExec evts) ∧
      sort_contract evts (sortExec evts) ∧
      ∀ i j (hi : i < (sortExec evts).length) (hj : j < (sortExec evts).length),
        i < j →
        ((sortExec evts).get ⟨i, hi⟩).ticks ≤ ((sortExec evts).get ⟨j, hj⟩).ticks := by
  unfold parse_midi at h
  cases hd : decode_phase buf l0 with
  | none => rw [hd] at h; cases h
  | some r =>
    obtain ⟨st, hdr, evts⟩ := r
    rw [hd] at h
    have h2 : (if st ≠ .STATUS_SUCCESS then some (.errored st evts)
        else some (.ok (translate_time hdr (sortExec evts)))) =
        some (parse_output.ok out) := h
    by_cases hst : st = .STATUS_SUCCESS
    · subst hst
      rw [if_neg (not_not_intro rfl)] at h2
      have hout : out = translate_time hdr (sortExec evts) :=
        ((parse_output.ok.injEq _ _).mp (Option.some.inj h2)).symm
      refine ⟨hdr, evts, rfl, hout, sortExec_contract evts, ?_⟩
      intro i j hi hj hij
      exact (sortExec_sorted evts).rel_get_of_lt (Fin.mk_lt_mk.mpr hij)
    · rw [if_pos hst] at h2
      cases h2

/-- Witness for C2_amended at the spec example buffer. -/
theorem C2_amended_witness :
    ∃ hdr evts, decode_phase specBuf [] = some (.STATUS_SUCCESS, hdr, evts) ∧
      [(⟨.EVENT_NOTE_ON, 60, 0⟩ : timed_event_t), ⟨.EVENT_NOTE_OFF, 60, 1⟩] =
        translate_time hdr (sortExec evts) ∧
      sort_contract evts (sortExec evts) ∧
      ∀ i j (hi : i < (sortExec evts).length) (hj : j < (sortExec evts).length),
        i < j →
        ((sortExec evts).get ⟨i, hi⟩).ticks ≤ ((sortExec evts).get ⟨j, hj⟩).ticks :=
  C2_amended specBuf [] _ parse_specBuf

/-- Claim C8 counterexample: in buf8eot an end-of-track meta event is
followed, inside the declared chunk length, by a note-on; the claim
says the track loop terminates at the 0x2F meta, so that note would not
be decoded, yet the parse output holds it. -/
theorem C8_counterexample :
    parse_midi buf8eot [] = some (.ok [⟨.EVENT_NOTE_ON, 60, 0⟩]) ∧
    parse_midi buf8eot [] ≠ some (.ok []) := by
  have hp : parse_midi buf8eot [] = some (.ok [⟨.EVENT_NOTE_ON, 60, 0⟩]) := by
    have h1 : decode_phase buf8eot [] =
        some (.STATUS_SUCCESS, ⟨6, 0, 1, 96⟩, [⟨.EVENT_NOTE_ON, 60, 0⟩]) := by decide
    have h2 : sortExec [⟨.EVENT_NOTE_ON, 60, 0⟩] = [⟨.EVENT_NOTE_ON, 60, 0⟩] := by decide
    rw [parse_midi, h1]
    simp only [reduceCtorEq, ne_eq, not_true_eq_false, if_false, h2]
    simp [translate_time, translate_time_aux, U64]
  refine ⟨hp, ?_⟩
  rw [hp]
  simp

/-- Claim C8 amended: a meta event whose type is not 0x51 — including
the end-of-track type 0x2F — is skipped by its declared length and the
track loop simply continues; the loop stops only when the cursor
reaches the declared chunk end. -/
theorem C8_amended (buf : List Nat)
    (pos time last pc delta p1 p2 mtype p3 mlen p4 : Nat) (has : Bool)
    (h1 : read_var_len buf pos = some (delta, p1))
    (h2 : read_be 1 buf p1 = some (0xff, p2))
    (h3 : read_be 1 buf p2 = some (mtype, p3))
    (h4 : mtype ≠ 0x51)
    (h5 : read_var_len buf p3 = some (mlen, p4)) :
    track_step buf pos time last pc has =
      .next (p4 + mlen) ((time + delta) % U64) 0xff pc has none ∧
    ∀ endP fuel (events : List event_t), pos ≠ endP →
      track_loop buf endP (fuel + 1) pos time last pc has events =
        track_loop buf endP fuel (p4 + mlen) ((time + delta) % U64)
          0xff pc has events := by
  have hstep : track_step buf pos time last pc has =
      .next (p4 + mlen) ((time + delta) % U64) 0xff pc has none := by
    unfold track_step
    rw [h1]
    dsimp only
    rw [h2]
    dsimp only
    norm_num
    rw [h3]
    dsimp only
    rw [h5]
    dsimp only
    rw [if_neg h4]
  refine ⟨hstep, ?_⟩
  intro endP fuel events hne
  simp only [track_loop, if_neg hne, hstep, Option.toList_none, List.append_nil]

/-- Witness for C8_amended at the concrete bytes 00 ff 2f 00 (delta 0,
meta event of type 0x2f and length 0). -/
theorem C8_amended_witness :
    track_step [0x00, 0xff, 0x2f, 0x00] 0 7 9 11 false =
      .next 4 ((7 + 0) % U64) 0xff 11 false none ∧
    ∀ endP fuel (events : List event_t), 0 ≠ endP →
      track_loop [0x00, 0xff, 0x2f, 0x00] endP (fuel + 1) 0 7 9 11 false events =
        track_loop [0x00, 0xff, 0x2f, 0x00] endP fuel 4 ((7 + 0) % U64)
          0xff 11 false events :=
  C8_amended [0x00, 0xff, 0x2f, 0x00] 0 7 9 11 0 1 2 0x2f 3 0 4 false
    (by decide) (by decide) (by decide) (by decide) (by decide)

/-- Appending to the caller-supplied event list commutes with the
per-track loop: the loop only pushes events at the back. -/
lemma track_loop_append (buf : List Nat) (endP : Nat) (l0 : List event_t) :
    ∀ fuel pos time last pc (has : Bool) (l : List event_t),
    track_loop buf endP fuel pos time last pc has (l0 ++ l) =
      Option.map (track_exit.mapEvents (fun es => l0 ++ es))
        (track_loop buf endP fuel pos time last pc has l) := by
  intro fuel
  induction fuel with
  | zero => intro pos time last pc has l; rfl
  | succ n ih =>
    intro pos time last pc has l
    simp only [track_loop]
    by_cases hp : pos = endP
    · simp [hp, track_exit.mapEvents]
    · rw [if_neg hp, if_neg hp]
      cases track_step buf pos time last pc has with
      | ub => rfl
      | fatal => simp [track_exit.mapEvents]
      | next pos2 time2 last2 pc2 has2 emit =>
        dsimp only
        rw [List.append_assoc]
        exact ih pos2 time2 last2 pc2 has2 (l ++ emit.toList)

/-- Appending to the caller-supplied event list commutes with the track
iteration loop. -/
lemma tracks_loop_append (buf : List Nat) (format : Nat) (l0 : List event_t) :
    ∀ tleft pos time pc (has : Bool) (l : List event_t),
    tracks_loop buf format tleft pos time pc has (l0 ++ l) =
      Option.map (fun r => (r.1, l0 ++ r.2))
        (tracks_loop buf format tleft pos time pc has l) := by
  intro tleft
  induction tleft with
  | zero => intro pos time pc has l; rfl
  | succ n ih =>
    intro pos time pc has l
    simp only [tracks_loop]
    by_cases h3 : 3 ≤ format
    · rw [if_pos h3, if_pos h3]; rfl
    · rw [if_neg h3, if_neg h3]
      by_cases h1 : format = 1 ∧ has = true
      · rw [if_pos h1, if_pos h1]
        exact ih pos 0 pc has l
      · rw [if_neg h1, if_neg h1]
        cases hth : read_track_header buf pos with
        | none => rfl
        | some r =>
          obtain ⟨clen, p1⟩ := r
          dsimp only
          rw [track_loop_append buf (p1 + clen) l0]
          cases track_loop buf (p1 + clen) (buf.length + 1) p1
              (if format = 1 then 0 else time) 0
              (if format = 2 then 0xff else pc)
              (if format = 2 then false else has) l with
          | none => rfl
          | some te =>
            cases te with
            | err events2 => rfl
            | done time2 pc2 has2 events2 =>
              dsimp only [Option.map, track_exit.mapEvents]
              exact ih (p1 + clen) time2 pc2 has2 events2

/-- Appending to the caller-supplied event list commutes with the whole
decode phase. -/
lemma decode_phase_append (buf : List Nat) (l0 l : List event_t) :
    decode_phase buf (l0 ++ l) =
      Option.map (fun r => (r.1, r.2.1, l0 ++ r.2.2)) (decode_phase buf l) := by
  simp only [decode_phase]
  cases read_midi_header buf 0 with
  | none => rfl
  | some r =>
    obtain ⟨st, hdr, pos⟩ := r
    dsimp only
    by_cases hst : st ≠ .STATUS_SUCCESS
    · rw [if_pos hst, if_pos hst]; rfl
    · rw [if_neg hst, if_neg hst]
      rw [tracks_loop_append buf hdr.format l0]
      cases tracks_loop buf hdr.format hdr.ntracks pos 0 0xff false l with
      | none => rfl
      | some r2 => rfl

/-- Claim C10 (confirmed): parse_midi never clears the caller-supplied
vector; whatever it holds on entry is kept in front of the newly
decoded events and goes through the sort and the time translation with
them, so the documented output arises exactly when the vector starts
empty. -/
theorem C10_appends (buf : List Nat) (l0 : List event_t) :
    decode_phase buf l0 =
      Option.map (fun r => (r.1, r.2.1, l0 ++ r.2.2)) (decode_phase buf []) ∧
    ∀ hdr evts, decode_phase buf [] = some (.STATUS_SUCCESS, hdr, evts) →
      parse_midi buf l0 =
        some (.ok (translate_time hdr (sortExec (l0 ++ evts)))) := by
  have happ : decode_phase buf l0 =
      Option.map (fun r => (r.1, r.2.1, l0 ++ r.2.2)) (decode_phase buf []) := by
    have := decode_phase_append buf l0 []
    rwa [List.append_nil] at this
  refine ⟨happ, ?_⟩
  intro hdr evts hdec
  rw [parse_midi, happ, hdec]
  dsimp only [Option.map]
  rw [if_neg (not_not_intro rfl)]

/-- Witness for C10_appends: parsing the spec example with a tempo
event already in the vector keeps that event in the sorted and
translated output. -/
theorem C10_appends_witness :
    parse_midi specBuf [⟨.EVENT_TEMPO_SET, 500000, 0⟩] =
      some (.ok (translate_time ⟨6, 0, 1, 96⟩
        (sortExec ([⟨.EVENT_TEMPO_SET, 500000, 0⟩] ++
          [⟨.EVENT_NOTE_ON, 60, 0⟩, ⟨.EVENT_NOTE_OFF, 60, 96⟩])))) :=
  (C10_appends specBuf [⟨.EVENT_TEMPO_SET, 500000, 0⟩]).2
    ⟨6, 0, 1, 96⟩ [⟨.EVENT_NOTE_ON, 60, 0⟩, ⟨.EVENT_NOTE_OFF, 60, 96⟩] (by decide)

end PianoMidi
